import Mathlib

/-!
Verification development for the oxy-script compiler and virtual machine
(crates oxs / oxlex). Rust source components are shallowly embedded as
executable Lean definitions:

* machine integers are modelled as natural numbers with explicit
  reduction modulo two to the word width where overflow matters;
* byte buffers (the VM stack, the swap scratch area, the program code)
  are lists of byte-sized naturals;
* Rust HashMap values whose iteration order is irrelevant are modelled
  as association lists in insertion order, BTreeMap values as
  association lists kept sorted by key (the iteration order a BTreeMap
  actually guarantees);
* fallible Rust functions return Except values; a Rust panic (index out
  of bounds, arithmetic overflow in a checked build) is modelled by a
  distinguished error constructor; potentially non-terminating
  recursion is modelled with a fuel parameter whose exhaustion is a
  distinguished error;
* the thread-local random number generator is modelled as an explicit
  finite prefix of its output stream, passed as an argument.
-/

namespace Oxs

/-! ## Little-endian byte serialization

The VM serializes every operand and register value with bincode's
default configuration: fixed-width little-endian integers. -/

/-- Little-endian byte list of length width for the value v (taken
modulo two to the 8·width). -/
def toLEBytes : (width : Nat) → (v : Nat) → List Nat
  | 0, _ => []
  | w + 1, v => (v % 256) :: toLEBytes w (v / 256)

/-- Value of a little-endian byte list. -/
def fromLEBytes : List Nat → Nat
  | [] => 0
  | b :: rest => b + 256 * fromLEBytes rest

theorem toLEBytes_length (w v : Nat) : (toLEBytes w v).length = w := by
  induction w generalizing v with
  | zero => rfl
  | succ w ih => simp [toLEBytes, ih]

theorem fromLEBytes_toLEBytes (w v : Nat) (h : v < 256 ^ w) :
    fromLEBytes (toLEBytes w v) = v := by
  induction w generalizing v with
  | zero =>
    simp [toLEBytes, fromLEBytes]
    omega
  | succ w ih =>
    have hlt : v / 256 < 256 ^ w := by
      rw [Nat.div_lt_iff_lt_mul (by norm_num)]
      calc v < 256 ^ (w + 1) := h
        _ = 256 ^ w * 256 := by ring
    simp [toLEBytes, fromLEBytes, ih (v / 256) hlt]
    omega

/-! ## Tagged addresses (vm/address.rs)

A 64-bit address carries a 3-bit segment tag in the top bits and a
61-bit real address in the low bits. -/

/-- Mirror of the Rust AddressType enum. -/
inductive AddressType where
  | program
  | stack
  | heap
  | foreign
  | swap
deriving DecidableEq, Repr

/-- Numeric segment tag of an address type (Address::new match). -/
def AddressType.tagNum : AddressType → Nat
  | .program => 0
  | .stack => 1
  | .heap => 2
  | .swap => 3
  | .foreign => 4

/-- Address::new — raw 64-bit address from a real address and a segment
type. The Rust code adds (not ors) the shifted tag, wrapping at 2^64 in
a release build. -/
def addressNew (real : Nat) (ty : AddressType) : Nat :=
  (real + ty.tagNum * 2 ^ 61) % 2 ^ 64

/-- Real (untagged) part of a raw address: Address::from computes
(raw << 3) >> 3 on u64, which is reduction modulo 2^61. -/
def addrReal (raw : Nat) : Nat := raw % 2 ^ 61

/-- Segment tag bits of a raw address: raw >> 61. -/
def addrTagBits (raw : Nat) : Nat := raw / 2 ^ 61

/-- Address::from's tag decoding. Tag values 5–7 panic in the source
(Address is not formatted correctly), modelled by none. -/
def addrTypeFrom (raw : Nat) : Option AddressType :=
  match addrTagBits raw with
  | 0 => some .program
  | 1 => some .stack
  | 2 => some .heap
  | 3 => some .swap
  | 4 => some .foreign
  | _ => none

/-- Address::with_offset applies a signed 16-bit offset to the real
address only (u64 wrapping arithmetic). -/
def addrWithOffset (real : Nat) (off : Int) : Nat :=
  (((real : Int) + off).emod (2 ^ 64)).toNat

/-! ## The compiler's register allocator (codegen/register.rs) -/

/-- Mirror of the codegen Register enum (R0–R15, SP, IP). -/
inductive Reg where
  | R0 | R1 | R2 | R3 | R4 | R5 | R6 | R7
  | R8 | R9 | R10 | R11 | R12 | R13 | R14 | R15
  | SP | IP
deriving DecidableEq, Repr

/-- Register::from(u8) for the values the allocator uses (0–17). -/
def Reg.fromU8 : Nat → Reg
  | 0 => .R0 | 1 => .R1 | 2 => .R2 | 3 => .R3
  | 4 => .R4 | 5 => .R5 | 6 => .R6 | 7 => .R7
  | 8 => .R8 | 9 => .R9 | 10 => .R10 | 11 => .R11
  | 12 => .R12 | 13 => .R13 | 14 => .R14 | 15 => .R15
  | 16 => .SP | _ => .IP

/-- Mirror of the parser Type enum (parser/ast.rs): the surface types
the compiler computes sizes for. The reserved Tuple variant's member
list is omitted (never constructed by any modelled code path). -/
inductive Ty where
  | void
  | int
  | float
  | bool
  | string
  | auto
  | reference (t : Ty)
  | autoArray (t : Ty)
  | array (t : Ty) (n : Nat)
  | other (name : String)
  | tuple
deriving DecidableEq, Repr

/-- Mirror of the CompilerError enum (codegen/compiler.rs). Payloads
carried by constructors are included where the claims need them. -/
inductive CompilerError where
  | unknown
  | unimplemented (msg : String)
  | duplicateVariable (n : String)
  | duplicateMember (n : String)
  | duplicateFunction (n : String)
  | duplicateModule (n : String)
  | duplicateContainer (n : String)
  | duplicateImport (n : String)
  | unknownFunction (n : String)
  | unknownContainer (n : String)
  | unknownVariable (n : String)
  | unknownModule (n : String)
  | unknownMember (n : String)
  | unknownType (t : Ty)
  | invalidModulePath (n : String)
  | registerMapping
deriving DecidableEq, Repr

/-- Mirror of the RegisterAllocator struct: a queue of temporary
registers, the blocked set, and the optional forced register. -/
structure RegisterAllocator where
  register_queue : List Reg
  blocked_registers : List Reg
  forced_temp : Option Reg
deriving DecidableEq, Repr

/-- RegisterAllocator::block_register — removes the register from the
queue (error if absent) and records it as blocked. -/
def RegisterAllocator.block_register (a : RegisterAllocator) (reg : Reg) :
    Except CompilerError RegisterAllocator :=
  match a.register_queue.indexOf? reg with
  | none => .error .registerMapping
  | some i =>
    .ok { a with
          register_queue := a.register_queue.eraseIdx i,
          blocked_registers := reg :: a.blocked_registers }

/-- RegisterAllocator::new — pushes registers for raw values 0..15
(exclusive) onto the queue, then blocks R0; the unwrap on the block
cannot fail because R0 is in the queue. -/
def RegisterAllocator.new : RegisterAllocator :=
  let queue := (List.range 15).map Reg.fromU8
  let base : RegisterAllocator :=
    { register_queue := queue, blocked_registers := [], forced_temp := none }
  match base.block_register .R0 with
  | .ok a => a
  | .error _ => base

/-- RegisterAllocator::get_temp_register — clears the forced register,
pops the queue front, pushes it to the back and returns it. -/
def RegisterAllocator.get_temp_register (a : RegisterAllocator) :
    Except CompilerError (Reg × RegisterAllocator) :=
  match a.register_queue with
  | [] => .error .registerMapping
  | r :: rest =>
    .ok (r, { a with register_queue := rest ++ [r], forced_temp := none })

/-- RegisterAllocator::get_last_temp_register — the forced register if
set, otherwise the queue element at index len − 1 (the back). -/
def RegisterAllocator.get_last_temp_register (a : RegisterAllocator) :
    Except CompilerError Reg :=
  match a.forced_temp with
  | some r => .ok r
  | none =>
    match a.register_queue.get? (a.register_queue.length - 1) with
    | some r => .ok r
    | none => .error .registerMapping

/-- RegisterAllocator::force_temp_register. -/
def RegisterAllocator.force_temp_register (a : RegisterAllocator) (reg : Reg) :
    RegisterAllocator :=
  { a with forced_temp := some reg }

/-! ## VM core (vm/core.rs) -/

/-- Mirror of the CoreError enum. -/
inductive CoreError where
  | unknown
  | noProgram
  | stackOverflow
  | invalidOpcode (b : Nat)
  | unimplementedOpcode (b : Nat)
  | operatorDeserialize
  | operatorSerialize
  | emptyCallStack
  | unknownFunctionUid
  | invalidStackPointer
  | invalidRegister
  | noReturnValue
  | halted (code : Nat)
deriving DecidableEq, Repr

/-- Errors of a modelled run. A Rust panic (out-of-bounds indexing,
checked-arithmetic overflow) aborts the process and is modelled by the
panic constructor; outOfFuel marks a run longer than the given fuel;
unmodelledInstr marks dispatch of an opcode outside the modelled
fragment of the interpreter (none of the claims reach one). -/
inductive RunError where
  | core (e : CoreError)
  | panic
  | outOfFuel
  | unmodelledInstr (b : Nat)
deriving DecidableEq, Repr

/-- A loaded Program (codegen/program.rs): code image and the
function-UID → code-offset table. Foreign descriptors hold host
closures and are represented only by their UID set on the core. -/
structure Program where
  code : List Nat
  functions : List (Nat × Nat)
deriving DecidableEq, Repr

/-- Association-list lookup (HashMap::get). -/
def lookupAssoc {α : Type} : List (String × α) → String → Option α
  | [], _ => none
  | (k, v) :: rest, key => if k = key then some v else lookupAssoc rest key

/-- Association-list lookup with natural-number keys. -/
def lookupAssocN {α : Type} : List (Nat × α) → Nat → Option α
  | [], _ => none
  | (k, v) :: rest, key => if k = key then some v else lookupAssocN rest key

/-- Association-list removal with natural-number keys (HashMap::remove
removes the unique entry for the key). -/
def removeAssocN {α : Type} : List (Nat × α) → Nat → List (Nat × α)
  | [], _ => []
  | (k, v) :: rest, key =>
    if k = key then rest else (k, v) :: removeAssocN rest key

/-- Mirror of the Core struct. Registers are raw 64-bit values (the
Register union reinterpreted per access); the call stack is a list with
the most recently pushed return address first (VecDeque::push_front);
heap and heap_pointers are always empty in the source and omitted. -/
structure Core where
  stack : List Nat
  foreign_pointers : List (Nat × Nat)
  foreign_function_uids : List Nat
  swap : List Nat
  program : Option Program
  call_stack : List Nat
  registers : List Nat
  ip : Nat
  sp : Nat
deriving DecidableEq, Repr

/-- SWAP_SPACE_SIZE constant. -/
def SWAP_SPACE_SIZE : Nat := 64

/-- Core::new — zeroed stack of the configured size, 64-byte swap,
SP initialized to the tagged Stack address with real part 0. -/
def Core.new (stack_size : Nat) : Core :=
  { stack := List.replicate stack_size 0
    foreign_pointers := []
    foreign_function_uids := []
    swap := List.replicate SWAP_SPACE_SIZE 0
    program := none
    call_stack := []
    registers := List.replicate 16 0
    ip := 0
    sp := addressNew 0 .stack }

/-- Core::reg read — register 16 is SP, 17 is IP, 0–15 index the file,
anything else is InvalidRegister. -/
def Core.regGetRaw (c : Core) (i : Nat) : Except RunError Nat :=
  if i = 16 then .ok c.sp
  else if i = 17 then .ok c.ip
  else if i < 16 then .ok (c.registers.getD i 0)
  else .error (.core .invalidRegister)

/-- Core::reg write, same routing as the read. -/
def Core.regSetRaw (c : Core) (i : Nat) (v : Nat) : Except RunError Core :=
  if i = 16 then .ok { c with sp := v }
  else if i = 17 then .ok { c with ip := v }
  else if i < 16 then .ok { c with registers := c.registers.set i v }
  else .error (.core .invalidRegister)

/-- Reads n bytes of a byte buffer starting at pos; none models the
panic of an out-of-bounds index. -/
def readBytes (l : List Nat) (pos n : Nat) : Option (List Nat) :=
  if pos + n ≤ l.length then some ((l.drop pos).take n) else none

/-- Overwrites n = bytes.length bytes of a byte buffer starting at pos;
none models the panic of an out-of-bounds index. -/
def writeBytes (l : List Nat) (pos : Nat) (bytes : List Nat) : Option (List Nat) :=
  if pos + bytes.length ≤ l.length then
    some (l.take pos ++ bytes ++ l.drop (pos + bytes.length))
  else none

/-- The byte buffer mem_mov_n and mem_get_n read from for a segment tag
(Stack, Program and Swap are readable; everything else is
CoreError::Unknown). -/
def Core.segmentBytes (c : Core) (ty : AddressType) : Except RunError (List Nat) :=
  match ty with
  | .stack => .ok c.stack
  | .program =>
    match c.program with
    | none => .error (.core .unknown)
    | some p => .ok p.code
  | .swap => .ok c.swap
  | _ => .error (.core .unknown)

/-- Core::mem_mov_n — resolves both tagged addresses (a malformed tag
panics in Address::from), reads n bytes from the source segment and
writes them to the target segment; the target match arms are Stack,
Program and Swap, everything else is CoreError::Unknown. -/
def Core.mem_mov_n (c : Core) (lhs : Nat × Int) (rhs : Nat × Int) (n : Nat) :
    Except RunError Core :=
  match addrTypeFrom lhs.1, addrTypeFrom rhs.1 with
  | none, _ => .error .panic
  | _, none => .error .panic
  | some lty, some rty =>
    let source_addr := addrWithOffset (addrReal lhs.1) lhs.2
    let target_addr := addrWithOffset (addrReal rhs.1) rhs.2
    match c.segmentBytes lty with
    | .error e => .error e
    | .ok src =>
      match readBytes src source_addr n with
      | none => .error .panic
      | some bytes =>
        match rty with
        | .stack =>
          match writeBytes c.stack target_addr bytes with
          | none => .error .panic
          | some st => .ok { c with stack := st }
        | .program =>
          match c.program with
          | none => .error (.core .unknown)
          | some p =>
            match writeBytes p.code target_addr bytes with
            | none => .error .panic
            | some pc => .ok { c with program := some { p with code := pc } }
        | .swap =>
          match writeBytes c.swap target_addr bytes with
          | none => .error .panic
          | some sw => .ok { c with swap := sw }
        | _ => .error (.core .unknown)

/-- Core::mem_get_n — reads n bytes at a tagged address. -/
def Core.mem_get_n (c : Core) (addr : Nat × Int) (n : Nat) :
    Except RunError (List Nat) :=
  match addrTypeFrom addr.1 with
  | none => .error .panic
  | some ty =>
    let source_addr := addrWithOffset (addrReal addr.1) addr.2
    match c.segmentBytes ty with
    | .error e => .error e
    | .ok src =>
      match readBytes src source_addr n with
      | none => .error .panic
      | some bytes => .ok bytes

/-! Primitive values as bincode serializes them: fixed-width
little-endian bit patterns. Signed integers and floats are represented
by their bit patterns, which is exactly what crosses the byte
boundary. -/

/-- The primitive kinds the VM stack and registers move as single
values. -/
inductive PrimKind where
  | int64
  | uint64
  | float32
  | boolean
deriving DecidableEq, Repr

/-- A primitive value, by bit pattern. -/
inductive PrimValue where
  | int64 (bits : Nat)
  | uint64 (bits : Nat)
  | float32 (bits : Nat)
  | boolean (b : Bool)
deriving DecidableEq, Repr

/-- size_of::<T> for each primitive kind. -/
def PrimKind.size : PrimKind → Nat
  | .int64 => 8
  | .uint64 => 8
  | .float32 => 4
  | .boolean => 1

/-- Kind of a primitive value. -/
def PrimValue.kind : PrimValue → PrimKind
  | .int64 _ => .int64
  | .uint64 _ => .uint64
  | .float32 _ => .float32
  | .boolean _ => .boolean

/-- A value's bit pattern fits its width. -/
def PrimValue.wf : PrimValue → Prop
  | .int64 bits => bits < 2 ^ 64
  | .uint64 bits => bits < 2 ^ 64
  | .float32 bits => bits < 2 ^ 32
  | .boolean _ => True

instance (v : PrimValue) : Decidable v.wf := by
  cases v <;> simp [PrimValue.wf] <;> infer_instance

/-- bincode::serialize for a primitive: fixed-width little-endian; a
bool is one byte, 1 for true and 0 for false. -/
def primSerialize : PrimValue → List Nat
  | .int64 bits => toLEBytes 8 bits
  | .uint64 bits => toLEBytes 8 bits
  | .float32 bits => toLEBytes 4 bits
  | .boolean b => [if b then 1 else 0]

/-- bincode::deserialize for a primitive kind; a bool byte other than 0
or 1 is a deserialization error. -/
def primDeserialize : PrimKind → List Nat → Option PrimValue
  | .int64, bytes => some (.int64 (fromLEBytes bytes))
  | .uint64, bytes => some (.uint64 (fromLEBytes bytes))
  | .float32, bytes => some (.float32 (fromLEBytes bytes))
  | .boolean, bytes =>
    match bytes with
    | [0] => some (.boolean false)
    | [1] => some (.boolean true)
    | _ => none

/-- Core::mem_set — serializes the value, resolves the tagged address,
and writes; the match arms are Stack and Program ONLY (no Swap arm in
the source), everything else is CoreError::Unknown. -/
def Core.mem_set (c : Core) (addr : Nat × Int) (item : PrimValue) :
    Except RunError Core :=
  match addrTypeFrom addr.1 with
  | none => .error .panic
  | some ty =>
    let data := primSerialize item
    let target_addr := addrWithOffset (addrReal addr.1) addr.2
    match ty with
    | .stack =>
      match writeBytes c.stack target_addr data with
      | none => .error .panic
      | some st => .ok { c with stack := st }
    | .program =>
      match c.program with
      | none => .error (.core .unknown)
      | some p =>
        match writeBytes p.code target_addr data with
        | none => .error .panic
        | some pc => .ok { c with program := some { p with code := pc } }
    | _ => .error (.core .unknown)

/-- Core::push_stack — serializes the value, writes it at the real SP
address and increments the raw SP register by the byte size (u64
wrapping add). There is no capacity check; an out-of-range write is the
panic of stack[sp_real + i]. -/
def Core.push_stack (c : Core) (item : PrimValue) : Except RunError Core :=
  let raw_bytes := primSerialize item
  let sp_real := addrReal c.sp
  match writeBytes c.stack sp_real raw_bytes with
  | none => .error .panic
  | some st =>
    .ok { c with stack := st, sp := (c.sp + raw_bytes.length) % 2 ^ 64 }

/-- Core::pop_stack — fails with InvalidStackPointer when the byte size
exceeds the raw SP register value, reads size bytes below the real SP
address, decrements SP and deserializes. The subtraction
source_addr − op_size panics if the real address is smaller than the
size; a failed deserialize is CoreError::Unknown. -/
def Core.pop_stack (c : Core) (k : PrimKind) :
    Except RunError (PrimValue × Core) :=
  let op_size := k.size
  if op_size > c.sp then .error (.core .invalidStackPointer)
  else
    let sp_real := addrReal c.sp
    if sp_real < op_size then .error .panic
    else
      match readBytes c.stack (sp_real - op_size) op_size with
      | none => .error .panic
      | some raw_bytes =>
        let c1 := { c with sp := c.sp - op_size }
        match primDeserialize k raw_bytes with
        | none => .error (.core .unknown)
        | some v => .ok (v, c1)

/-- Core::ret — pops the most recent return address off the call stack
and writes it into IP. -/
def Core.ret (c : Core) : Except RunError Core :=
  match c.call_stack with
  | [] => .error (.core .emptyCallStack)
  | old_ip :: rest => .ok { c with ip := old_ip, call_stack := rest }

/-- Core::get_op — reads size bytes of the code image at IP and
advances IP by size; slicing past the end of the code panics. -/
def Core.get_op (c : Core) (size : Nat) : Except RunError (Nat × Core) :=
  match c.program with
  | none => .error (.core .noProgram)
  | some p =>
    if c.ip + size ≤ p.code.length then
      .ok (fromLEBytes ((p.code.drop c.ip).take size),
           { c with ip := (c.ip + size) % 2 ^ 64 })
    else .error .panic

/-- Opcode::try_from — the enum covers 0–70 with the value 3 unused. -/
def validOpcode (b : Nat) : Bool :=
  b ≤ 70 && b ≠ 3

/-- Result of one iteration of the run_at dispatch loop. -/
inductive StepResult where
  | next (c : Core)
  | exitLoop (c : Core)
  | fail (e : RunError)
deriving Repr

/-- One iteration of the Core::run_at while body: fetch and validate
the opcode at IP, then dispatch. The modelled arms are NOOP, HALT,
ADDU_I, SUBU_I, JMP, CALL (native), and RET — the opcodes the verified
claims exercise; every other (valid) opcode dispatches to
unmodelledInstr, and a CALL to a foreign UID does too, because it runs
an arbitrary host closure. -/
def Core.stepInstr (c : Core) : StepResult :=
  match c.get_op 1 with
  | .error e => .fail e
  | .ok (op, c) =>
    if validOpcode op then
      match op with
      | 0 => .next c
      | 1 =>
        match c.get_op 1 with
        | .error e => .fail e
        | .ok (err_code, _) =>
          if err_code = 1 then .fail (.core .noReturnValue)
          else .fail (.core (.halted err_code))
      | 36 =>
        match c.get_op 1 with
        | .error e => .fail e
        | .ok (lhs_reg, c) =>
          match c.get_op 8 with
          | .error e => .fail e
          | .ok (rhs, c) =>
            match c.get_op 1 with
            | .error e => .fail e
            | .ok (target_reg, c) =>
              match c.regGetRaw lhs_reg with
              | .error e => .fail e
              | .ok lhs =>
                if lhs_reg = 16 ∧ target_reg = 16 then
                  if addrReal c.sp + rhs > c.stack.length then
                    .fail (.core .stackOverflow)
                  else
                    match c.regSetRaw target_reg ((lhs + rhs) % 2 ^ 64) with
                    | .error e => .fail e
                    | .ok c => .next c
                else
                  match c.regSetRaw target_reg ((lhs + rhs) % 2 ^ 64) with
                  | .error e => .fail e
                  | .ok c => .next c
      | 37 =>
        match c.get_op 1 with
        | .error e => .fail e
        | .ok (lhs_reg, c) =>
          match c.get_op 8 with
          | .error e => .fail e
          | .ok (rhs, c) =>
            match c.get_op 1 with
            | .error e => .fail e
            | .ok (target_reg, c) =>
              match c.regGetRaw lhs_reg with
              | .error e => .fail e
              | .ok lhs =>
                if lhs < rhs then .fail .panic
                else
                  match c.regSetRaw target_reg (lhs - rhs) with
                  | .error e => .fail e
                  | .ok c => .next c
      | 48 =>
        match c.get_op 8 with
        | .error e => .fail e
        | .ok (target_ip, c) => .next { c with ip := target_ip }
      | 54 =>
        match c.get_op 8 with
        | .error e => .fail e
        | .ok (fn_uid, c) =>
          if fn_uid ∈ c.foreign_function_uids then .fail (.unmodelledInstr 54)
          else
            match c.program with
            | none => .fail (.core .noProgram)
            | some p =>
              match lookupAssocN p.functions fn_uid with
              | none => .fail (.core .unknownFunctionUid)
              | some new_ip =>
                .next { c with call_stack := c.ip :: c.call_stack, ip := new_ip }
      | 55 =>
        match c.call_stack with
        | [] => .exitLoop c
        | _ =>
          match c.ret with
          | .error e => .fail e
          | .ok c => .next c
      | b => .fail (.unmodelledInstr b)
    else .fail (.core (.invalidOpcode op))

/-- The Core::run_at while loop, with the program length computed once
before the loop as in the source, and fuel bounding the number of
iterations. -/
def Core.runLoop : Nat → Nat → Core → Except RunError Core
  | 0, _, _ => .error .outOfFuel
  | fuel + 1, program_len, c =>
    if c.ip < program_len then
      match c.stepInstr with
      | .next c1 => Core.runLoop fuel program_len c1
      | .exitLoop c1 => .ok c1
      | .fail e => .error e
    else .ok c

/-- Core::run_at — sets IP to the offset and runs the dispatch loop;
program_len on a missing program is CoreError::Unknown. -/
def Core.run_at (fuel : Nat) (c : Core) (offset : Nat) : Except RunError Core :=
  match c.program with
  | none => .error (.core .unknown)
  | some p => Core.runLoop fuel p.code.length { c with ip := offset }

/-- Core::run_fn — looks up the function offset (a missing UID is
reported as NoProgram in the source) and runs from there. -/
def Core.runFnAt (fuel : Nat) (c : Core) (uid : Nat) : Except RunError Core :=
  match c.program with
  | none => .error (.core .noProgram)
  | some p =>
    match lookupAssocN p.functions uid with
    | none => .error (.core .noProgram)
    | some fn_offset => c.run_at fuel fn_offset

/-! ## UID generation (codegen/uid_generator.rs)

thread_rng's output is modelled as an explicit finite list of 64-bit
values; a generator call consumes it from the front. An empty remaining
stream (none) stands for the real generator's unbounded loop. -/

/-- Mirror of the UIDGenerator struct, with its pending random stream
made explicit. -/
structure UIDGenerator where
  rng : List Nat
  uid_set : List Nat
  functions : List (String × Nat)
deriving DecidableEq, Repr

/-- UIDGenerator::new with the given random stream. -/
def UIDGenerator.new (rng : List Nat) : UIDGenerator :=
  { rng := rng, uid_set := [], functions := [] }

/-- The generate loop: draw values until one is outside the used set,
returning it, the remaining stream and the grown set. -/
def genFresh : List Nat → List Nat → Option (Nat × List Nat × List Nat)
  | [], _ => none
  | r :: rest, used =>
    if r ∈ used then genFresh rest used
    else some (r, rest, r :: used)

/-- UIDGenerator::generate — a fresh random u64, recorded in the used
set. -/
def UIDGenerator.generate (g : UIDGenerator) : Option (Nat × UIDGenerator) :=
  match genFresh g.rng g.uid_set with
  | none => none
  | some (uid, rng1, used1) =>
    some (uid, { g with rng := rng1, uid_set := used1 })

/-- UIDGenerator::get_function_uid — returns the memoized UID for a
name if present, otherwise generates a fresh one and records it. -/
def UIDGenerator.get_function_uid (g : UIDGenerator) (name : String) :
    Option (Nat × UIDGenerator) :=
  match lookupAssoc g.functions name with
  | some uid => some (uid, g)
  | none =>
    match g.generate with
    | none => none
    | some (uid, g1) =>
      some (uid, { g1 with functions := (name, uid) :: g1.functions })

/-! ## Foreign-pointer table (vm/core.rs)

The opaque host object behind an Arc pointer is represented by the raw
u64 the source stores in the table (the transmuted box address); host
typing is outside the embedding. -/

/-- The insert_foreign_ptr while loop: a fresh UIDGenerator draws
candidates; a candidate whose tagged raw address is already a table key
is rejected and redrawn. -/
def pickForeignRaw : List Nat → List Nat → List (Nat × Nat) → Option Nat
  | [], _, _ => none
  | r :: rest, used, table =>
    if r ∈ used then pickForeignRaw rest used table
    else
      let raw := addressNew r .foreign
      if (lookupAssocN table raw).isSome then
        pickForeignRaw rest (r :: used) table
      else some raw

/-- Core::insert_foreign_ptr — picks a fresh Foreign-tagged handle and
maps it to the opaque object value. -/
def Core.insert_foreign_ptr (c : Core) (rng : List Nat) (item : Nat) :
    Option (Nat × Core) :=
  match pickForeignRaw rng [] c.foreign_pointers with
  | none => none
  | some ptr =>
    some (ptr, { c with foreign_pointers := (ptr, item) :: c.foreign_pointers })

/-- Core::get_foreign_ptr — table lookup; a missing handle is
CoreError::Unknown. -/
def Core.get_foreign_ptr (c : Core) (ptr : Nat) : Except RunError Nat :=
  match lookupAssocN c.foreign_pointers ptr with
  | none => .error (.core .unknown)
  | some v => .ok v

/-- Core::remove_foreign_ptr — removes and returns the entry; a missing
handle is CoreError::Unknown. -/
def Core.remove_foreign_ptr (c : Core) (ptr : Nat) :
    Except RunError (Nat × Core) :=
  match lookupAssocN c.foreign_pointers ptr with
  | none => .error (.core .unknown)
  | some v =>
    .ok (v, { c with foreign_pointers := removeAssocN c.foreign_pointers ptr })

/-! ## Containers and sizes (codegen/def.rs, codegen/compiler.rs)

Results of compiler functions carry, besides the source's
CompilerError, a panic marker (Option::unwrap on None) and a divergence
marker (fuel exhaustion standing for recursion the source would not
return from, e.g. a container containing itself or an import cycle). -/

/-- Error domain of the modelled compiler functions. -/
inductive CompErr where
  | compile (e : CompilerError)
  | panic
  | div
deriving DecidableEq, Repr

/-- Mirror of the FunctionDef struct. -/
structure FunctionDef where
  name : String
  uid : Nat
  ret_type : Ty
  arguments : List (String × Ty)
deriving DecidableEq, Repr

/-- Mirror of the ContainerDef struct. member_variables is a HashMap
(iteration order arbitrary; modelled in insertion order, which only
feeds an order-independent sum); member_indices is a BTreeMap and is
kept sorted by key, the iteration order a BTreeMap guarantees. -/
structure ContainerDef where
  name : String
  canonical_name : String
  member_variables : List (String × Ty)
  member_indices : List (String × Nat)
  member_functions : List (String × FunctionDef)
  interfaces : List String
deriving DecidableEq, Repr

/-- ContainerDef::new. -/
def ContainerDef.new (name canon_name : String) : ContainerDef :=
  { name := name, canonical_name := canon_name,
    member_variables := [], member_indices := [],
    member_functions := [], interfaces := [] }

/-- BTreeMap::insert on a key-sorted association list. -/
def btreeInsert : List (String × Nat) → String → Nat → List (String × Nat)
  | [], k, v => [(k, v)]
  | (k0, v0) :: rest, k, v =>
    match compare k k0 with
    | .lt => (k, v) :: (k0, v0) :: rest
    | .eq => (k, v) :: rest
    | .gt => (k0, v0) :: btreeInsert rest k v

/-- ContainerDef::add_member_variable — rejects duplicates, records the
type, and assigns the next index (the current index-map length). -/
def ContainerDef.add_member_variable (d : ContainerDef) (var : String × Ty) :
    Except CompErr ContainerDef :=
  if (lookupAssoc d.member_variables var.1).isSome then
    .error (.compile (.duplicateMember var.1))
  else
    let index := d.member_indices.length
    .ok { d with
          member_variables := d.member_variables ++ [(var.1, var.2)],
          member_indices := btreeInsert d.member_indices var.1 index }

/-- ContainerDef::get_member_index. -/
def ContainerDef.get_member_index (d : ContainerDef) (name : String) :
    Except CompErr Nat :=
  match lookupAssoc d.member_indices name with
  | none => .error (.compile (.unknownMember name))
  | some i => .ok i

/-- ContainerDef::get_member_type. -/
def ContainerDef.get_member_type (d : ContainerDef) (name : String) :
    Except CompErr Ty :=
  match lookupAssoc d.member_variables name with
  | none => .error (.compile (.unknownMember name))
  | some t => .ok t

/-- ContainerDef::merge_cont_decl — adds every declared member in
order; the source unwraps, so a duplicate member panics. -/
def ContainerDef.merge_cont_decl (d : ContainerDef)
    (members : List (String × Ty)) : Except CompErr ContainerDef :=
  match members with
  | [] => .ok d
  | m :: rest =>
    match d.add_member_variable m with
    | .error _ => .error .panic
    | .ok d1 => d1.merge_cont_decl rest

/-- ContainerDef::from_decl — a fresh definition with the declared
members merged in declaration order. -/
def ContainerDef.from_decl (name canon_name : String)
    (members : List (String × Ty)) : Except CompErr ContainerDef :=
  (ContainerDef.new name canon_name).merge_cont_decl members

/-- Mirror of the ModuleContext struct (codegen/context.rs); interfaces
are omitted as no modelled operation reads them. -/
inductive ModuleContext where
  | mk (name : String)
       (modules : List (String × ModuleContext))
       (functions : List (String × FunctionDef))
       (containers : List (String × ContainerDef))
       (imports : List (String × String))

/-- Module name. -/
def ModuleContext.name : ModuleContext → String
  | .mk n _ _ _ _ => n

/-- Child modules. -/
def ModuleContext.modules : ModuleContext → List (String × ModuleContext)
  | .mk _ m _ _ _ => m

/-- Module-level functions. -/
def ModuleContext.functions : ModuleContext → List (String × FunctionDef)
  | .mk _ _ f _ _ => f

/-- Module-level containers. -/
def ModuleContext.containers : ModuleContext → List (String × ContainerDef)
  | .mk _ _ _ c _ => c

/-- Module-level imports (alias → path). -/
def ModuleContext.imports : ModuleContext → List (String × String)
  | .mk _ _ _ _ i => i

/-- ModuleContext::new. -/
def ModuleContext.newCtx (name : String) : ModuleContext :=
  .mk name [] [] [] []

/-- The Compiler fields the modelled operations read: the module
context stack (front = current, back = root), the function-UID map and
the UID generator. The builder, data segment and per-function contexts
feed no modelled claim and are omitted. -/
structure Compiler where
  mod_context_stack : List ModuleContext
  fn_uid_map : List (String × Nat)
  uid_generator : UIDGenerator
  current_cont : Option String

/-- Compiler::new — pushes the root module context. -/
def Compiler.new (rng : List Nat) : Compiler :=
  { mod_context_stack := [ModuleContext.newCtx "root"]
    fn_uid_map := []
    uid_generator := UIDGenerator.new rng
    current_cont := none }

/-- Compiler::get_current_module — stack front, CompilerError::Unknown
when empty. -/
def Compiler.get_current_module (cp : Compiler) : Except CompErr ModuleContext :=
  match cp.mod_context_stack.head? with
  | none => .error (.compile .unknown)
  | some m => .ok m

/-- Compiler::get_root_module — stack back, CompilerError::Unknown when
empty. -/
def Compiler.get_root_module (cp : Compiler) : Except CompErr ModuleContext :=
  match cp.mod_context_stack.getLast? with
  | none => .error (.compile .unknown)
  | some m => .ok m

/-- Compiler::get_function_uid — fn_uid_map lookup; a missing name is
UnknownFunction. -/
def Compiler.get_function_uid (cp : Compiler) (name : String) :
    Except CompErr Nat :=
  match lookupAssoc cp.fn_uid_map name with
  | none => .error (.compile (.unknownFunction name))
  | some uid => .ok uid

/-- The resolve_container path walk: the source looks up each middle
fragment in the current module's child map and unwraps the Option on
the next turn, so a missing fragment panics. -/
def walkModules (m : ModuleContext) : List String → Except CompErr ModuleContext
  | [] => .ok m
  | f :: rest =>
    match lookupAssoc m.modules f with
    | none => .error .panic
    | some m1 => walkModules m1 rest

/-- Compiler::resolve_container — dotted names walk the module tree
(root:: anchors at the root module, super:: is Unimplemented, a bare
first fragment starts at the current module); plain names look in the
current module's containers, then recurse through an import alias. That
recursion through aliases is fueled. -/
def Compiler.resolve_container (cp : Compiler) :
    Nat → String → Except CompErr ContainerDef
  | 0, _ => .error .div
  | fuel + 1, name =>
    let fragments := name.splitOn "::"
    if fragments.length > 1 then
      let startRes : Except CompErr (ModuleContext × List String) :=
        if fragments.head? = some "root" then
          match cp.get_root_module with
          | .error e => .error e
          | .ok m => .ok (m, (fragments.drop 1).dropLast)
        else if fragments.head? = some "super" then
          .error (.compile (.unimplemented "Blub"))
        else
          match cp.get_current_module with
          | .error e => .error e
          | .ok m => .ok (m, fragments.dropLast)
      match startRes with
      | .error e => .error e
      | .ok (start, middle) =>
        match walkModules start middle with
        | .error e => .error e
        | .ok m =>
          match fragments.getLast? with
          | none => .error .panic
          | some last =>
            match lookupAssoc m.containers last with
            | none => .error (.compile (.unknownContainer name))
            | some d => .ok d
    else
      match cp.get_current_module with
      | .error e => .error e
      | .ok m =>
        match lookupAssoc m.containers name with
        | some d => .ok d
        | none =>
          match lookupAssoc m.imports name with
          | some import_path => cp.resolve_container fuel import_path
          | none => .error (.compile (.unknownContainer name))

mutual

/-- Compiler::get_size_of_type — the byte size of a type: String 16,
Void 0, Int 8, Reference 8 except Reference(AutoArray) 16, Float 4,
Bool 4, Other the container's summed size (ContainerDef::get_size,
whose summation loop is membersSizeSum below), Array element size times
length; any other type is UnknownType. Recursion is fueled; every
recursive call decrements the fuel. -/
def Compiler.get_size_of_type (cp : Compiler) :
    Nat → Ty → Except CompErr Nat
  | 0, _ => .error .div
  | fuel + 1, var_type =>
    match var_type with
    | .string => .ok 16
    | .void => .ok 0
    | .int => .ok 8
    | .reference inner =>
      match inner with
      | .autoArray _ => .ok 16
      | _ => .ok 8
    | .float => .ok 4
    | .bool => .ok 4
    | .other cont_name =>
      match cp.resolve_container (fuel + 1) cont_name with
      | .error e => .error e
      | .ok cont_def => membersSizeSum cp fuel cont_def.member_variables
    | .array inner_type size =>
      match cp.get_size_of_type fuel inner_type with
      | .error e => .error e
      | .ok inner_type_size => .ok (inner_type_size * size)
    | t => .error (.compile (.unknownType t))

/-- The ContainerDef::get_size summation loop over the member map. -/
def membersSizeSum (cp : Compiler) :
    Nat → List (String × Ty) → Except CompErr Nat
  | 0, _ => .error .div
  | _ + 1, [] => .ok 0
  | fuel + 1, (_, var_type) :: rest =>
    match cp.get_size_of_type fuel var_type with
    | .error e => .error e
    | .ok s =>
      match membersSizeSum cp fuel rest with
      | .error e => .error e
      | .ok srest => .ok (s + srest)

end

/-- ContainerDef::get_size — the sum of the member sizes, iterating the
member_variables map. -/
def ContainerDef.get_size (d : ContainerDef) (cp : Compiler) (fuel : Nat) :
    Except CompErr Nat :=
  membersSizeSum cp fuel d.member_variables

/-- The get_member_offset accumulation loop: walk the (name-sorted)
index map, computing each member's size, stopping without adding when
the target index is reached. -/
def memberOffsetLoop (cp : Compiler) (fuel : Nat) (d : ContainerDef)
    (target_index : Nat) :
    List (String × Nat) → Nat → Except CompErr Nat
  | [], offset => .ok offset
  | (member_name, member_index) :: rest, offset =>
    match d.get_member_type member_name with
    | .error e => .error e
    | .ok member_type =>
      match cp.get_size_of_type fuel member_type with
      | .error e => .error e
      | .ok member_size =>
        if member_index = target_index then .ok offset
        else memberOffsetLoop cp fuel d target_index rest (offset + member_size)

/-- ContainerDef::get_member_offset — resolves the target index, then
iterates the member_indices BTreeMap (in key order) accumulating member
sizes until the target index is hit. -/
def ContainerDef.get_member_offset (d : ContainerDef) (cp : Compiler)
    (fuel : Nat) (var_name : String) : Except CompErr Nat :=
  match d.get_member_index var_name with
  | .error e => .error e
  | .ok target_index => memberOffsetLoop cp fuel d target_index d.member_indices 0

/-! ## Engine facade (engine/mod.rs) -/

/-- Mirror of the EngineError enum; runtime errors carry the modelled
run-error domain. -/
inductive EngineError where
  | unknown
  | coreError (e : RunError)
  | parseError
  | compileError (e : CompErr)
deriving DecidableEq, Repr

/-- The Engine: a VM core plus the compiler. -/
structure Engine where
  core : Core
  compiler : Compiler

/-- Engine::new. -/
def Engine.new (stack_size : Nat) (rng : List Nat) : Engine :=
  { core := Core.new stack_size, compiler := Compiler.new rng }

/-- Engine::run_fn — resolves the name to a UID through the compiler's
fn_uid_map; an unknown name surfaces as a CompileError before the core
is touched. On a successful run the mutated core is kept; the mutated
state at a failed run is not tracked by the model (no claim reads
it). -/
def Engine.run_fn (e : Engine) (fuel : Nat) (name : String) :
    Except EngineError Unit × Engine :=
  match e.compiler.get_function_uid name with
  | .error ce => (.error (.compileError ce), e)
  | .ok fn_uid =>
    match e.core.runFnAt fuel fn_uid with
    | .error re => (.error (.coreError re), e)
    | .ok core1 => (.ok (), { e with core := core1 })

/-! ## Auxiliary spec-side definitions for comparison -/

/-- The well-formedness invariant the UID generator maintains: every
memoized function UID is in the used set, and no two names share a
UID. -/
def UIDGenerator.Wf (g : UIDGenerator) : Prop :=
  (∀ n u, lookupAssoc g.functions n = some u → u ∈ g.uid_set) ∧
  (∀ n1 n2 u, n1 ≠ n2 → lookupAssoc g.functions n1 = some u →
    lookupAssoc g.functions n2 = some u → False)

/-! ## General lemmas -/

theorem genFresh_spec (rng used : List Nat) (u : Nat) (rng1 used1 : List Nat)
    (h : genFresh rng used = some (u, rng1, used1)) :
    u ∉ used ∧ used1 = u :: used := by
  induction rng with
  | nil => simp [genFresh] at h
  | cons r rest ih =>
    by_cases hmem : r ∈ used
    · exact ih (by simpa [genFresh, hmem] using h)
    · simp only [genFresh, if_neg hmem, Option.some.injEq, Prod.mk.injEq] at h
      obtain ⟨h1, h2, h3⟩ := h
      subst h1
      exact ⟨hmem, h3.symm⟩

theorem generate_spec (g : UIDGenerator) (u : Nat) (g1 : UIDGenerator)
    (h : g.generate = some (u, g1)) :
    u ∉ g.uid_set ∧ g1.uid_set = u :: g.uid_set ∧ g1.functions = g.functions := by
  unfold UIDGenerator.generate at h
  cases hg : genFresh g.rng g.uid_set with
  | none => rw [hg] at h; exact absurd h (by simp)
  | some t =>
    obtain ⟨u0, rng1, used1⟩ := t
    rw [hg] at h
    simp at h
    obtain ⟨hu, hg1⟩ := h
    have hs := genFresh_spec _ _ _ _ _ hg
    subst hu
    exact ⟨hs.1, by rw [← hg1]; exact hs.2, by rw [← hg1]⟩

theorem writeBytes_length (l : List Nat) (p : Nat) (b l1 : List Nat)
    (h : writeBytes l p b = some l1) : l1.length = l.length := by
  unfold writeBytes at h
  by_cases hle : p + b.length ≤ l.length
  · rw [if_pos hle] at h
    injection h with h
    subst h
    simp only [List.length_append, List.length_take, List.length_drop]
    omega
  · simp [hle] at h

theorem readBytes_writeBytes (l : List Nat) (p : Nat) (b l1 : List Nat)
    (h : writeBytes l p b = some l1) : readBytes l1 p b.length = some b := by
  unfold writeBytes at h
  by_cases hle : p + b.length ≤ l.length
  · rw [if_pos hle] at h
    injection h with h
    subst h
    have hlen : (List.take p l).length = p := by
      simp only [List.length_take]
      omega
    unfold readBytes
    have hbound : p + b.length ≤
        (List.take p l ++ b ++ List.drop (p + b.length) l).length := by
      simp only [List.length_append, List.length_take, List.length_drop]
      omega
    rw [if_pos hbound]
    have hdrop := List.drop_left (List.take p l) (b ++ List.drop (p + b.length) l)
    rw [hlen] at hdrop
    rw [List.append_assoc, hdrop, List.take_left]
  · simp [hle] at h

theorem primSerialize_length (v : PrimValue) :
    (primSerialize v).length = v.kind.size := by
  cases v <;> simp [primSerialize, PrimValue.kind, PrimKind.size, toLEBytes_length]

theorem primDeserialize_primSerialize (v : PrimValue) (hwf : v.wf) :
    primDeserialize v.kind (primSerialize v) = some v := by
  cases v with
  | int64 bits =>
    simp only [primSerialize, PrimValue.kind, primDeserialize]
    rw [fromLEBytes_toLEBytes 8 bits (by norm_num at hwf ⊢; exact hwf)]
  | uint64 bits =>
    simp only [primSerialize, PrimValue.kind, primDeserialize]
    rw [fromLEBytes_toLEBytes 8 bits (by norm_num at hwf ⊢; exact hwf)]
  | float32 bits =>
    simp only [primSerialize, PrimValue.kind, primDeserialize]
    rw [fromLEBytes_toLEBytes 4 bits (by norm_num at hwf ⊢; exact hwf)]
  | boolean b => cases b <;> rfl

theorem lookupAssocN_removeAssocN_self (l : List (Nat × Nat)) (k : Nat)
    (hnd : (l.map Prod.fst).Nodup) :
    lookupAssocN (removeAssocN l k) k = none := by
  induction l with
  | nil => rfl
  | cons p rest ih =>
    simp only [List.map_cons, List.nodup_cons] at hnd
    by_cases hk : p.1 = k
    · subst hk
      simp only [removeAssocN, if_pos rfl]
      cases hl : lookupAssocN rest p.1 with
      | none => exact hl
      | some v =>
        exfalso
        apply hnd.1
        clear ih hnd
        induction rest with
        | nil => simp [lookupAssocN] at hl
        | cons q qs ihq =>
          simp only [lookupAssocN] at hl
          by_cases hq : q.1 = p.1
          · simp [hq]
          · simp only [if_neg hq] at hl
            simp [ihq hl]
    · simp only [removeAssocN, if_neg hk, lookupAssocN, if_neg hk]
      exact ih hnd.2

theorem lookupAssocN_removeAssocN_other (l : List (Nat × Nat)) (k k1 : Nat)
    (hne : k1 ≠ k) :
    lookupAssocN (removeAssocN l k) k1 = lookupAssocN l k1 := by
  induction l with
  | nil => rfl
  | cons p rest ih =>
    by_cases hk : p.1 = k
    · subst hk
      simp only [removeAssocN, if_pos rfl, lookupAssocN]
      by_cases h1 : p.1 = k1
      · exact absurd h1.symm hne
      · simp [h1]
    · simp only [removeAssocN, if_neg hk, lookupAssocN]
      by_cases hk1 : p.1 = k1
      · simp [hk1]
      · simp [hk1, ih]

/-! ## Claim C1 -/

/-- The container C1 fails on: two int members declared in the order b,
then a (so declaration index 0 is b and index 1 is a, while the
BTreeMap key order is a before b). This is the value
ContainerDef::from_decl produces for that declaration. -/
def contBA : ContainerDef :=
  { name := "P", canonical_name := "root::P",
    member_variables := [("b", .int), ("a", .int)],
    member_indices := [("a", 1), ("b", 0)],
    member_functions := [], interfaces := [] }

/-- Modelled from the spec: the member offset the spec prescribes — the
prefix sum, in declaration order, of the sizes of the members declared
before the target (member_variables is kept in declaration order by
add_member_variable). -/
def declOrderOffsetSpec (cp : Compiler) (fuel : Nat) (d : ContainerDef)
    (name : String) : Except CompErr Nat :=
  match d.get_member_index name with
  | .error e => .error e
  | .ok k => membersSizeSum cp fuel (d.member_variables.take k)

/-- C1: the claim says member offsets computed by
ContainerDef::get_member_offset are prefix sums in declaration order.
The code iterates the member_indices BTreeMap, which is keyed (and
therefore ordered) by member NAME: for the container declaring b before
a, the first-declared member b (index 0) gets offset 8 — the size of a,
which sorts before it alphabetically — where the declaration-order
prefix sum is 0. The size half of the claim holds (16 = 8 + 8). -/
theorem c1_member_offset_code_bug :
    ContainerDef.from_decl "P" "root::P" [("b", Ty.int), ("a", Ty.int)] = .ok contBA ∧
    contBA.get_member_index "b" = .ok 0 ∧
    contBA.get_member_index "a" = .ok 1 ∧
    contBA.get_member_offset (Compiler.new []) 2 "b" = .ok 8 ∧
    declOrderOffsetSpec (Compiler.new []) 2 contBA "b" = .ok 0 ∧
    contBA.get_member_offset (Compiler.new []) 2 "a" = .ok 0 ∧
    contBA.get_size (Compiler.new []) 3 = .ok 16 ∧
    (8 : Nat) ≠ 0 :=
  ⟨rfl, rfl, rfl, rfl, rfl, rfl, rfl, by decide⟩

/-! ## Claim C2 -/

/-- C2 counterexample: the claim (with the spec) gives Bool byte size
1, but Compiler::get_size_of_type returns 4 for Bool. -/
theorem c2_bool_size_counterexample :
    (Compiler.new []).get_size_of_type 1 Ty.bool = .ok 4 ∧ (4 : Nat) ≠ 1 :=
  ⟨rfl, by decide⟩

/-- C2 amended: Compiler::get_size_of_type returns Void 0, Bool 4 (not
the spec's 1), Float 4, Int 8, String 16, Reference(AutoArray) 16,
Reference(other) 8, Array(T,N) size(T)·N, and for Other(name) the sum
of the resolved container's member sizes (the final two conjuncts pin
the summation down recursively). -/
theorem c2_size_table_amended (cp : Compiler) (fuel : Nat) :
    cp.get_size_of_type (fuel + 1) .void = .ok 0 ∧
    cp.get_size_of_type (fuel + 1) .bool = .ok 4 ∧
    cp.get_size_of_type (fuel + 1) .float = .ok 4 ∧
    cp.get_size_of_type (fuel + 1) .int = .ok 8 ∧
    cp.get_size_of_type (fuel + 1) .string = .ok 16 ∧
    (∀ t : Ty, cp.get_size_of_type (fuel + 1) (.reference (.autoArray t)) = .ok 16) ∧
    (∀ t : Ty, (∀ u : Ty, t ≠ .autoArray u) →
       cp.get_size_of_type (fuel + 1) (.reference t) = .ok 8) ∧
    (∀ (t : Ty) (n s : Nat), cp.get_size_of_type fuel t = .ok s →
       cp.get_size_of_type (fuel + 1) (.array t n) = .ok (s * n)) ∧
    (∀ (name : String) (d : ContainerDef),
       cp.resolve_container (fuel + 1) name = .ok d →
       cp.get_size_of_type (fuel + 1) (.other name) =
         membersSizeSum cp fuel d.member_variables) ∧
    membersSizeSum cp (fuel + 1) [] = .ok 0 ∧
    (∀ (nm : String) (t : Ty) (rest : List (String × Ty)) (s srest : Nat),
       cp.get_size_of_type fuel t = .ok s →
       membersSizeSum cp fuel rest = .ok srest →
       membersSizeSum cp (fuel + 1) ((nm, t) :: rest) = .ok (s + srest)) := by
  refine ⟨rfl, rfl, rfl, rfl, rfl, fun t => rfl, ?_, ?_, ?_, rfl, ?_⟩
  · intro t h
    cases t with
    | autoArray u => exact absurd rfl (h u)
    | _ => rfl
  · intro t n s h
    simp [Compiler.get_size_of_type, h]
  · intro name d h
    simp [Compiler.get_size_of_type, h]
  · intro nm t rest s srest h1 h2
    simp [membersSizeSum, h1, h2]

/-- C2 amended, evaluated: the Array and member-sum clauses at concrete
inputs through c2_size_table_amended. -/
theorem c2_size_table_amended_witness :
    (Compiler.new []).get_size_of_type 2 (.array .int 3) = .ok 24 ∧
    membersSizeSum (Compiler.new []) 2 [("x", Ty.float)] = .ok 4 := by
  have h := c2_size_table_amended (Compiler.new []) 1
  exact ⟨h.2.2.2.2.2.2.2.1 .int 3 8 rfl, h.2.2.2.2.2.2.2.2.2.2 "x" .float [] 4 0 rfl rfl⟩

/-! ## Claim C4 -/

/-- C4 counterexample: the claim puts R15 in the fresh queue and has
get_last_temp_register return the queue head; in the code the fresh
queue is R1–R14 only (the loop pushes raw values 0..15 exclusive and R0
is then blocked away) and get_last_temp_register returns the element at
index len − 1, the back: R14, not the head R1. -/
theorem c4_queue_counterexample :
    RegisterAllocator.new.register_queue.head? = some Reg.R1 ∧
    RegisterAllocator.new.get_last_temp_register = .ok Reg.R14 ∧
    Reg.R14 ≠ Reg.R1 ∧
    Reg.R15 ∉ RegisterAllocator.new.register_queue :=
  ⟨rfl, rfl, by decide, by decide⟩

/-- C4 amended: the fresh allocator's queue is R1–R14 with R0 blocked
and R15 absent; get_temp_register pops the front, pushes it to the back
and returns it, clearing any forced register; get_last_temp_register
returns the forced register if one is set, otherwise the BACK of the
queue (the most recently granted temporary), not the head. -/
theorem c4_register_allocator_amended :
    (RegisterAllocator.new.register_queue =
       [.R1, .R2, .R3, .R4, .R5, .R6, .R7, .R8, .R9, .R10, .R11, .R12, .R13, .R14] ∧
     RegisterAllocator.new.blocked_registers = [.R0] ∧
     RegisterAllocator.new.forced_temp = none) ∧
    (∀ (a : RegisterAllocator) (r : Reg) (rest : List Reg),
       a.register_queue = r :: rest →
       a.get_temp_register =
         .ok (r, { a with register_queue := rest ++ [r], forced_temp := none })) ∧
    (∀ (a : RegisterAllocator) (r : Reg), a.forced_temp = some r →
       a.get_last_temp_register = .ok r) ∧
    (∀ (a : RegisterAllocator) (r : Reg), a.forced_temp = none →
       a.register_queue.getLast? = some r →
       a.get_last_temp_register = .ok r) := by
  refine ⟨⟨rfl, rfl, rfl⟩, ?_, ?_, ?_⟩
  · intro a r rest hq
    simp [RegisterAllocator.get_temp_register, hq]
  · intro a r hf
    simp [RegisterAllocator.get_last_temp_register, hf]
  · intro a r hf hl
    rw [List.getLast?_eq_getElem?] at hl
    simp [RegisterAllocator.get_last_temp_register, hf, hl]

/-- C4 amended, evaluated: rotating the fresh allocator returns R1 and
queues it at the back; the forced register wins get_last_temp_register;
without a forced register the back of the queue is returned. -/
theorem c4_register_allocator_amended_witness :
    RegisterAllocator.new.get_temp_register =
      .ok (.R1, { RegisterAllocator.new with
                  register_queue :=
                    [.R2, .R3, .R4, .R5, .R6, .R7, .R8, .R9, .R10, .R11, .R12,
                     .R13, .R14] ++ [.R1],
                  forced_temp := none }) ∧
    (RegisterAllocator.new.force_temp_register .R0).get_last_temp_register = .ok .R0 ∧
    RegisterAllocator.new.get_last_temp_register = .ok .R14 := by
  refine ⟨?_, ?_, ?_⟩
  · exact c4_register_allocator_amended.2.1 RegisterAllocator.new .R1
      [.R2, .R3, .R4, .R5, .R6, .R7, .R8, .R9, .R10, .R11, .R12, .R13, .R14] rfl
  · exact c4_register_allocator_amended.2.2.1 _ .R0 rfl
  · exact c4_register_allocator_amended.2.2.2 RegisterAllocator.new .R14 rfl rfl

/-! ## Claim C6 -/

/-- C6 counterexample: the claim (with the spec's segment table) says
register-to-address stores to a Swap-tagged address succeed, but
Core::mem_set has no Swap arm: it returns CoreError::Unknown. -/
theorem c6_mem_set_swap_counterexample :
    (Core.new 0).mem_set (addressNew 0 .swap, 0) (.int64 5) =
      .error (.core .unknown) := rfl

/-- C6 amended: address-to-address moves (mem_mov_n, backing MOV*_A and
MOVN_A) whose target carries the Swap tag do write the bytes into the
swap scratch area and succeed, for any readable source segment; but
register-to-address stores (mem_set, backing MOV*_RA) fail with
CoreError::Unknown on every Swap-tagged address, because mem_set only
matches the Stack and Program segments. -/
theorem c6_swap_write_amended :
    (∀ (c : Core) (lraw rraw : Nat) (loff roff : Int) (n : Nat)
       (lty : AddressType) (src bytes sw : List Nat),
       addrTypeFrom lraw = some lty →
       c.segmentBytes lty = .ok src →
       addrTypeFrom rraw = some .swap →
       readBytes src (addrWithOffset (addrReal lraw) loff) n = some bytes →
       writeBytes c.swap (addrWithOffset (addrReal rraw) roff) bytes = some sw →
       c.mem_mov_n (lraw, loff) (rraw, roff) n = .ok { c with swap := sw }) ∧
    (∀ (c : Core) (raw : Nat) (off : Int) (v : PrimValue),
       addrTypeFrom raw = some .swap →
       c.mem_set (raw, off) v = .error (.core .unknown)) := by
  constructor
  · intro c lraw rraw loff roff n lty src bytes sw h1 h2 h3 h4 h5
    simp [Core.mem_mov_n, h1, h2, h3, h4, h5]
  · intro c raw off v h
    simp [Core.mem_set, h]

/-- C6 amended, evaluated: a 2-byte swap-to-swap move on a fresh core
succeeds and leaves the (all-zero) swap area intact, while a mem_set
store to the same swap address fails with Unknown. -/
theorem c6_swap_write_amended_witness :
    (Core.new 4).mem_mov_n (addressNew 0 .swap, 0) (addressNew 8 .swap, 0) 2 =
      .ok { Core.new 4 with swap := List.replicate 64 0 } ∧
    (Core.new 4).mem_set (addressNew 8 .swap, 0) (.boolean true) =
      .error (.core .unknown) := by
  constructor
  · exact c6_swap_write_amended.1 (Core.new 4) (addressNew 0 .swap)
      (addressNew 8 .swap) 0 0 2 .swap (List.replicate 64 0) [0, 0]
      (List.replicate 64 0) rfl rfl rfl rfl rfl
  · exact c6_swap_write_amended.2 (Core.new 4) (addressNew 8 .swap) 0
      (.boolean true) rfl

/-! ## Claim C10 -/

/-- C10: Engine::run_fn on a name with no entry in the compiler's
function-UID map returns the UnknownFunction compile error and leaves
the whole engine — in particular the VM core with its registers, SP,
IP, stack contents and call stack — unchanged. -/
theorem c10_run_fn_unknown_function (e : Engine) (fuel : Nat) (name : String)
    (h : lookupAssoc e.compiler.fn_uid_map name = none) :
    e.run_fn fuel name =
      (.error (.compileError (.compile (.unknownFunction name))), e) := by
  unfold Engine.run_fn Compiler.get_function_uid
  rw [h]

/-- C10, evaluated: a fresh engine rejects an unknown function name and
is returned unchanged. -/
theorem c10_run_fn_unknown_function_witness :
    (Engine.new 64 []).run_fn 5 "root::missing" =
      (.error (.compileError (.compile (.unknownFunction "root::missing"))),
       Engine.new 64 []) :=
  c10_run_fn_unknown_function (Engine.new 64 []) 5 "root::missing" rfl

/-! ## Claim C3 -/

/-- Case analysis of UIDGenerator::get_function_uid: either the name is
memoized and the generator is unchanged, or the name is new and a fresh
UID (outside the used set) is generated and recorded. -/
theorem get_function_uid_cases (g : UIDGenerator) (n : String) (u : Nat)
    (g1 : UIDGenerator) (h : g.get_function_uid n = some (u, g1)) :
    (lookupAssoc g.functions n = some u ∧ g1 = g) ∨
    (lookupAssoc g.functions n = none ∧ u ∉ g.uid_set ∧
      g1.uid_set = u :: g.uid_set ∧ g1.functions = (n, u) :: g.functions) := by
  unfold UIDGenerator.get_function_uid at h
  cases hl : lookupAssoc g.functions n with
  | some u0 =>
    rw [hl] at h
    simp only [Option.some.injEq, Prod.mk.injEq] at h
    obtain ⟨h1, h2⟩ := h
    subst h1
    left
    exact ⟨rfl, h2.symm⟩
  | none =>
    rw [hl] at h
    cases hg : g.generate with
    | none => rw [hg] at h; exact absurd h (by simp)
    | some t =>
      obtain ⟨u0, g0⟩ := t
      rw [hg] at h
      simp only [Option.some.injEq, Prod.mk.injEq] at h
      obtain ⟨hu, hg1⟩ := h
      subst hu
      subst hg1
      have hs := generate_spec g u0 g0 hg
      right
      exact ⟨rfl, hs.1, hs.2.1, by rw [hs.2.2]⟩

/-- C3 counterexample: UID assignment is not a stable hash of the name.
Two UIDGenerator instances over different random streams assign
different UIDs to the same canonical name — the UID is simply the next
fresh random value. -/
theorem c3_uid_not_stable_counterexample :
    ((UIDGenerator.new [1]).get_function_uid "root::main").map Prod.fst = some 1 ∧
    ((UIDGenerator.new [2]).get_function_uid "root::main").map Prod.fst = some 2 ∧
    (1 : Nat) ≠ 2 :=
  ⟨rfl, rfl, by decide⟩

/-- C3 amended: function UIDs are random, not hashed — but within one
UIDGenerator they are memoized per name (asking again returns the same
UID and leaves the generator unchanged) and unique (a well-formed
generator never hands two names the same UID); the fresh generator is
well-formed and get_function_uid preserves well-formedness. -/
theorem c3_uid_uniqueness_amended :
    (∀ rng : List Nat, (UIDGenerator.new rng).Wf) ∧
    (∀ (g g1 : UIDGenerator) (n : String) (u : Nat),
       g.Wf → g.get_function_uid n = some (u, g1) → g1.Wf) ∧
    (∀ (g g1 : UIDGenerator) (n : String) (u : Nat),
       g.get_function_uid n = some (u, g1) →
       g1.get_function_uid n = some (u, g1)) ∧
    (∀ (g g1 g2 : UIDGenerator) (n1 n2 : String) (u1 u2 : Nat),
       g.Wf → n1 ≠ n2 →
       g.get_function_uid n1 = some (u1, g1) →
       g1.get_function_uid n2 = some (u2, g2) →
       u1 ≠ u2) := by
  have hpres : ∀ (g g1 : UIDGenerator) (n : String) (u : Nat),
      g.Wf → g.get_function_uid n = some (u, g1) → g1.Wf := by
    intro g g1 n u hwf h
    rcases get_function_uid_cases g n u g1 h with ⟨_, hg⟩ | ⟨hl, hu, hset, hfun⟩
    · rwa [hg]
    · constructor
      · intro n0 u0 h0
        rw [hfun] at h0
        rw [hset]
        simp only [lookupAssoc] at h0
        by_cases hn0 : n = n0
        · rw [if_pos hn0] at h0
          injection h0 with h0
          simp [h0]
        · rw [if_neg hn0] at h0
          exact List.mem_cons_of_mem _ (hwf.1 n0 u0 h0)
      · intro n1 n2 w hne h1 h2
        rw [hfun] at h1 h2
        simp only [lookupAssoc] at h1 h2
        by_cases hc1 : n = n1
        · rw [if_pos hc1] at h1
          injection h1 with h1
          rw [if_neg (hc1 ▸ hne)] at h2
          exact hu (h1 ▸ hwf.1 n2 w h2)
        · rw [if_neg hc1] at h1
          by_cases hc2 : n = n2
          · rw [if_pos hc2] at h2
            injection h2 with h2
            exact hu (h2 ▸ hwf.1 n1 w h1)
          · rw [if_neg hc2] at h2
            exact hwf.2 n1 n2 w hne h1 h2
  refine ⟨?_, hpres, ?_, ?_⟩
  · intro rng
    exact ⟨fun n u h => by simp [UIDGenerator.new, lookupAssoc] at h,
           fun n1 n2 u _ h1 _ => by simp [UIDGenerator.new, lookupAssoc] at h1⟩
  · intro g g1 n u h
    rcases get_function_uid_cases g n u g1 h with ⟨hl, hg⟩ | ⟨_, _, _, hfun⟩
    · subst hg
      unfold UIDGenerator.get_function_uid
      rw [hl]
    · unfold UIDGenerator.get_function_uid
      rw [hfun]
      simp [lookupAssoc]
  · intro g g1 g2 n1 n2 u1 u2 hwf hne h1 h2
    have hwf1 : g1.Wf := hpres g g1 n1 u1 hwf h1
    rcases get_function_uid_cases g n1 u1 g1 h1 with ⟨hl1, hg1⟩ | ⟨_, hu1, hset1, hfun1⟩
    · rw [hg1] at h2
      have hmem1 : u1 ∈ g.uid_set := hwf.1 n1 u1 hl1
      rcases get_function_uid_cases g n2 u2 g2 h2 with ⟨hl2, _⟩ | ⟨_, hu2, _, _⟩
      · intro hequ
        exact hwf.2 n1 n2 u1 hne hl1 (hequ ▸ hl2)
      · intro hequ
        exact hu2 (hequ ▸ hmem1)
    · have hmem1 : u1 ∈ g1.uid_set := by rw [hset1]; simp
      rcases get_function_uid_cases g1 n2 u2 g2 h2 with ⟨hl2, _⟩ | ⟨_, hu2, _, _⟩
      · intro hequ
        rw [hfun1] at hl2
        simp only [lookupAssoc, if_neg (fun h => hne h)] at hl2
        have : u2 ∈ g.uid_set := hwf.1 n2 u2 hl2
        exact hu1 (hequ ▸ this)
      · intro hequ
        exact hu2 (hequ ▸ hmem1)

/-- C3 amended, evaluated: on the stream 5, 7 the names f and g receive
the distinct UIDs 5 and 7, through the uniqueness clause. -/
theorem c3_uid_uniqueness_amended_witness : (5 : Nat) ≠ 7 := by
  have h := c3_uid_uniqueness_amended
  exact h.2.2.2 (UIDGenerator.new [5, 7])
    { rng := [7], uid_set := [5], functions := [("f", 5)] }
    { rng := [], uid_set := [7, 5], functions := [("g", 7), ("f", 5)] }
    "f" "g" 5 7 (h.1 [5, 7]) (by decide) rfl rfl

/-! ## Claim C9 -/

/-- The candidate loop of insert_foreign_ptr returns a handle built by
Address::new from some drawn random value, and that handle is not yet a
key of the table. -/
theorem pickForeignRaw_spec (rng used : List Nat) (table : List (Nat × Nat))
    (raw : Nat) (h : pickForeignRaw rng used table = some raw) :
    lookupAssocN table raw = none ∧ ∃ u ∈ rng, raw = addressNew u .foreign := by
  induction rng generalizing used with
  | nil => simp [pickForeignRaw] at h
  | cons r rest ih =>
    by_cases hmem : r ∈ used
    · have h1 := ih used (by simpa [pickForeignRaw, hmem] using h)
      exact ⟨h1.1, by
        obtain ⟨u, hu, he⟩ := h1.2
        exact ⟨u, List.mem_cons_of_mem _ hu, he⟩⟩
    · rw [pickForeignRaw, if_neg hmem] at h
      by_cases htab : (lookupAssocN table (addressNew r .foreign)).isSome
      · rw [if_pos htab] at h
        have h1 := ih (r :: used) h
        exact ⟨h1.1, by
          obtain ⟨u, hu, he⟩ := h1.2
          exact ⟨u, List.mem_cons_of_mem _ hu, he⟩⟩
      · rw [if_neg htab] at h
        injection h with h
        subst h
        refine ⟨?_, r, List.mem_cons_self r rest, rfl⟩
        cases hl : lookupAssocN table (addressNew r .foreign) with
        | none => rfl
        | some v => rw [hl] at htab; simp at htab

/-- C9 counterexample: the handle insert_foreign_ptr returns does not
always carry the Foreign segment tag. Address::new ADDS the shifted tag
to the unmasked random u64: for the drawn value 2^61 the raw handle is
5·2^61, whose top bits decode to tag 5 — not Foreign (Address::from
would panic on it). -/
theorem c9_foreign_tag_counterexample :
    ((Core.new 0).insert_foreign_ptr [2 ^ 61] 42).map Prod.fst =
      some (5 * 2 ^ 61) ∧
    addrTypeFrom (5 * 2 ^ 61) ≠ some AddressType.foreign :=
  ⟨rfl, by decide⟩

/-- C9 amended: insert_foreign_ptr returns a handle built by
Address::new from a drawn random value — Foreign-tagged whenever that
value fits in 61 bits, which the code does not enforce — that is fresh,
retrieves the inserted object through get_foreign_ptr, and leaves every
other entry unchanged; remove_foreign_ptr returns the object, after
which get and remove on that handle fail with Unknown and all other
entries are unchanged. -/
theorem c9_foreign_ptr_amended :
    (∀ (c : Core) (rng : List Nat) (item h : Nat) (c1 : Core),
       c.insert_foreign_ptr rng item = some (h, c1) →
       lookupAssocN c.foreign_pointers h = none ∧
       (∃ u ∈ rng, h = addressNew u .foreign) ∧
       c1.get_foreign_ptr h = .ok item ∧
       (∀ k, k ≠ h → c1.get_foreign_ptr k = c.get_foreign_ptr k)) ∧
    (∀ u : Nat, u < 2 ^ 61 →
       addrTypeFrom (addressNew u .foreign) = some .foreign) ∧
    (∀ (c : Core) (hdl item : Nat),
       c.get_foreign_ptr hdl = .ok item →
       (c.foreign_pointers.map Prod.fst).Nodup →
       ∃ c2, c.remove_foreign_ptr hdl = .ok (item, c2) ∧
         c2.get_foreign_ptr hdl = .error (.core .unknown) ∧
         c2.remove_foreign_ptr hdl = .error (.core .unknown) ∧
         (∀ k, k ≠ hdl → c2.get_foreign_ptr k = c.get_foreign_ptr k)) := by
  refine ⟨?_, ?_, ?_⟩
  · intro c rng item h c1 hins
    unfold Core.insert_foreign_ptr at hins
    cases hp : pickForeignRaw rng [] c.foreign_pointers with
    | none => rw [hp] at hins; exact absurd hins (by simp)
    | some raw =>
      rw [hp] at hins
      simp only [Option.some.injEq, Prod.mk.injEq] at hins
      obtain ⟨hraw, hc1⟩ := hins
      subst hc1
      subst hraw
      have hs := pickForeignRaw_spec rng [] c.foreign_pointers raw hp
      refine ⟨hs.1, hs.2, ?_, ?_⟩
      · simp [Core.get_foreign_ptr, lookupAssocN]
      · intro k hk
        unfold Core.get_foreign_ptr
        simp only [lookupAssocN]
        rw [if_neg (fun hh : raw = k => hk hh.symm)]
  · intro u hu
    have h1 : addressNew u .foreign = u + 4 * 2 ^ 61 := by
      show (u + 4 * 2 ^ 61) % 2 ^ 64 = u + 4 * 2 ^ 61
      omega
    have h2 : addrTagBits (u + 4 * 2 ^ 61) = 4 := by
      show (u + 4 * 2 ^ 61) / 2 ^ 61 = 4
      omega
    rw [h1]
    unfold addrTypeFrom
    rw [h2]
  · intro c hdl item hget hnd
    unfold Core.get_foreign_ptr at hget
    cases hl : lookupAssocN c.foreign_pointers hdl with
    | none => rw [hl] at hget; exact absurd hget (by simp)
    | some v =>
      rw [hl] at hget
      simp only [Except.ok.injEq] at hget
      subst hget
      refine ⟨{ c with foreign_pointers := removeAssocN c.foreign_pointers hdl },
        ?_, ?_, ?_, ?_⟩
      · unfold Core.remove_foreign_ptr
        rw [hl]
      · unfold Core.get_foreign_ptr
        rw [lookupAssocN_removeAssocN_self c.foreign_pointers hdl hnd]
      · unfold Core.remove_foreign_ptr
        rw [lookupAssocN_removeAssocN_self c.foreign_pointers hdl hnd]
      · intro k hk
        unfold Core.get_foreign_ptr
        rw [lookupAssocN_removeAssocN_other c.foreign_pointers hdl k hk]

/-- C9 amended, evaluated: inserting the object 42 with the drawn value
7 yields the Foreign-tagged handle Address::new(7, Foreign); the handle
retrieves 42; removal returns 42 and the handle then resolves no
more. -/
theorem c9_foreign_ptr_amended_witness :
    (lookupAssocN (Core.new 0).foreign_pointers (addressNew 7 .foreign) = none ∧
     (∃ u ∈ [7], addressNew 7 .foreign = addressNew u .foreign) ∧
     Core.get_foreign_ptr
       { Core.new 0 with
         foreign_pointers := [(addressNew 7 .foreign, 42)] }
       (addressNew 7 .foreign) = .ok 42 ∧
     (∀ k, k ≠ addressNew 7 .foreign →
       Core.get_foreign_ptr
         { Core.new 0 with
           foreign_pointers := [(addressNew 7 .foreign, 42)] } k =
       (Core.new 0).get_foreign_ptr k)) ∧
    addrTypeFrom (addressNew 7 .foreign) = some .foreign ∧
    (∃ c2,
      Core.remove_foreign_ptr
        { Core.new 0 with
          foreign_pointers := [(addressNew 7 .foreign, 42)] }
        (addressNew 7 .foreign) = .ok (42, c2) ∧
      c2.get_foreign_ptr (addressNew 7 .foreign) = .error (.core .unknown) ∧
      c2.remove_foreign_ptr (addressNew 7 .foreign) = .error (.core .unknown) ∧
      (∀ k, k ≠ addressNew 7 .foreign →
        c2.get_foreign_ptr k =
          Core.get_foreign_ptr
            { Core.new 0 with
              foreign_pointers := [(addressNew 7 .foreign, 42)] } k)) := by
  refine ⟨?_, ?_, ?_⟩
  · exact c9_foreign_ptr_amended.1 (Core.new 0) [7] 42 (addressNew 7 .foreign)
      { Core.new 0 with foreign_pointers := [(addressNew 7 .foreign, 42)] } rfl
  · exact c9_foreign_ptr_amended.2.1 7 (by norm_num)
  · exact c9_foreign_ptr_amended.2.2
      { Core.new 0 with foreign_pointers := [(addressNew 7 .foreign, 42)] }
      (addressNew 7 .foreign) 42 rfl (by simp)

/-! ## Claim C7 -/

/-- C7: for every primitive value (64-bit int, 32-bit float, bool,
64-bit address by bit pattern) and every VM state whose real
stack-pointer address plus the value's size stays within the stack
capacity, push_stack followed by pop_stack returns the value
bit-for-bit and restores SP to its original raw value. The two extra
hypotheses are the address model's well-formedness: the capacity fits
the 61-bit real-address space and the raw 64-bit SP does not overflow
when bumped. -/
theorem c7_push_pop_roundtrip (c : Core) (v : PrimValue)
    (hwf : v.wf)
    (hcap : addrReal c.sp + v.kind.size ≤ c.stack.length)
    (hlen : c.stack.length < 2 ^ 61)
    (hraw : c.sp + v.kind.size < 2 ^ 64) :
    ∃ st1 : List Nat,
      c.push_stack v = .ok { c with stack := st1, sp := c.sp + v.kind.size } ∧
      Core.pop_stack { c with stack := st1, sp := c.sp + v.kind.size } v.kind =
        .ok (v, { c with stack := st1 }) := by
  have hser : (primSerialize v).length = v.kind.size := primSerialize_length v
  have hw0 : writeBytes c.stack (addrReal c.sp) (primSerialize v) =
      some (c.stack.take (addrReal c.sp) ++ primSerialize v ++
            c.stack.drop (addrReal c.sp + (primSerialize v).length)) := by
    unfold writeBytes
    rw [if_pos (by rw [hser]; exact hcap)]
  rw [hser] at hw0
  have hr := readBytes_writeBytes c.stack (addrReal c.sp) (primSerialize v) _ hw0
  rw [hser] at hr
  refine ⟨c.stack.take (addrReal c.sp) ++ primSerialize v ++
          c.stack.drop (addrReal c.sp + v.kind.size), ?_, ?_⟩
  · unfold Core.push_stack
    dsimp only
    rw [hw0, hser]
    rw [Nat.mod_eq_of_lt hraw]
  · have hng : ¬ (v.kind.size > c.sp + v.kind.size) := by omega
    have hreal : addrReal c.sp + v.kind.size ≤ c.stack.length := hcap
    have haddr : addrReal (c.sp + v.kind.size) = addrReal c.sp + v.kind.size := by
      unfold addrReal at hreal ⊢
      omega
    unfold Core.pop_stack
    dsimp only
    rw [if_neg hng, haddr]
    rw [if_neg (show ¬ (addrReal c.sp + v.kind.size < v.kind.size) by omega)]
    rw [show addrReal c.sp + v.kind.size - v.kind.size = addrReal c.sp by omega]
    simp only [hr, primDeserialize_primSerialize v hwf, Nat.add_sub_cancel]

/-- C7, evaluated: pushing the int bit pattern 259 on a fresh 16-byte
stack and popping an int returns 259 and restores SP. -/
theorem c7_push_pop_roundtrip_witness :
    ∃ st1 : List Nat,
      (Core.new 16).push_stack (.int64 259) =
        .ok { Core.new 16 with stack := st1, sp := (Core.new 16).sp + 8 } ∧
      Core.pop_stack
        { Core.new 16 with stack := st1, sp := (Core.new 16).sp + 8 }
        PrimKind.int64 = .ok (.int64 259, { Core.new 16 with stack := st1 }) :=
  c7_push_pop_roundtrip (Core.new 16) (.int64 259) (by decide)
    (by decide) (by decide) (by decide)

/-! ## Claims C5 and C8 -/

/-- Decoding one operand: if the code bytes from IP split as pre ++
post with pre of the requested width, get_op returns the little-endian
value of pre and advances IP past it. -/
theorem get_op_eq (c : Core) (p : Program) (k : Nat) (pre post : List Nat)
    (hp : c.program = some p) (hd : p.code.drop c.ip = pre ++ post)
    (hk : pre.length = k) (hk0 : 0 < k) (hip : c.ip + k < 2 ^ 64) :
    c.get_op k = .ok (fromLEBytes pre, { c with ip := c.ip + k }) ∧
    p.code.drop (c.ip + k) = post ∧
    c.ip + k ≤ p.code.length := by
  have hlen0 : (p.code.drop c.ip).length = p.code.length - c.ip := by simp
  rw [hd] at hlen0
  simp only [List.length_append, hk] at hlen0
  have hle : c.ip + k ≤ p.code.length := by omega
  refine ⟨?_, ?_, hle⟩
  · simp only [Core.get_op, hp]
    rw [if_pos hle, hd, ← hk, List.take_left, Nat.mod_eq_of_lt (hk ▸ hip)]
  · have h0 : List.drop k (List.drop c.ip p.code) = post := by
      rw [hd, ← hk, List.drop_left]
    rw [List.drop_drop] at h0
    exact h0

/-- One unfolding of the run_at while loop at positive fuel. -/
theorem runLoop_succ (fuel program_len : Nat) (c : Core) :
    Core.runLoop (fuel + 1) program_len c =
      if c.ip < program_len then
        match c.stepInstr with
        | .next c1 => Core.runLoop fuel program_len c1
        | .exitLoop c1 => .ok c1
        | .fail e => .error e
      else .ok c := rfl

/-- C5: executing ADDU_I with SP (register 16) as both source and
destination fails with StackOverflow exactly when the real (untagged)
SP address plus the immediate exceeds the stack capacity; otherwise the
raw SP register grows by the immediate and the dispatch loop continues
with the next instruction. The hypotheses fix the code bytes at IP to
the ADDU_I encoding (opcode 36, source register 16, 8-byte little-
endian immediate, target register 16) and rule out 64-bit wraparound of
SP and IP. -/
theorem c5_addu_i_sp_stack_overflow (c : Core) (p : Program) (n : Nat)
    (rest : List Nat) (fuel : Nat)
    (hp : c.program = some p)
    (hcode : p.code.drop c.ip = 36 :: 16 :: (toLEBytes 8 n ++ 16 :: rest))
    (hn : n < 2 ^ 64)
    (hsp : c.sp + n < 2 ^ 64)
    (hip : c.ip + 11 < 2 ^ 64) :
    (addrReal c.sp + n > c.stack.length →
       c.stepInstr = .fail (.core .stackOverflow) ∧
       Core.runLoop (fuel + 1) p.code.length c = .error (.core .stackOverflow)) ∧
    (addrReal c.sp + n ≤ c.stack.length →
       c.stepInstr = .next { c with ip := c.ip + 11, sp := c.sp + n } ∧
       Core.runLoop (fuel + 1) p.code.length c =
         Core.runLoop fuel p.code.length { c with ip := c.ip + 11, sp := c.sp + n }) := by
  have h1 := get_op_eq c p 1 [36] (16 :: (toLEBytes 8 n ++ 16 :: rest)) hp
    (by simpa using hcode) rfl (by omega) (by omega)
  have h1op : c.get_op 1 = .ok (36, { c with ip := c.ip + 1 }) := by
    rw [h1.1]; rfl
  have h2 := get_op_eq { c with ip := c.ip + 1 } p 1 [16]
    (toLEBytes 8 n ++ 16 :: rest) hp (by simpa using h1.2.1) rfl (by omega)
    (show c.ip + 1 + 1 < 2 ^ 64 by omega)
  dsimp only at h2
  have h2op : Core.get_op { c with ip := c.ip + 1 } 1 =
      .ok (16, { c with ip := c.ip + 1 + 1 }) := by
    rw [h2.1]; rfl
  have h3 := get_op_eq { c with ip := c.ip + 1 + 1 } p 8 (toLEBytes 8 n)
    (16 :: rest) hp (by simpa using h2.2.1) (toLEBytes_length 8 n)
    (by omega) (show c.ip + 1 + 1 + 8 < 2 ^ 64 by omega)
  dsimp only at h3
  have h3op : Core.get_op { c with ip := c.ip + 1 + 1 } 8 =
      .ok (n, { c with ip := c.ip + 1 + 1 + 8 }) := by
    rw [h3.1, fromLEBytes_toLEBytes 8 n (by norm_num; omega)]
  have h4 := get_op_eq { c with ip := c.ip + 1 + 1 + 8 } p 1 [16] rest hp
    (by simpa using h3.2.1) rfl (by omega)
    (show c.ip + 1 + 1 + 8 + 1 < 2 ^ 64 by omega)
  dsimp only at h4
  have h4op : Core.get_op { c with ip := c.ip + 1 + 1 + 8 } 1 =
      .ok (16, { c with ip := c.ip + 1 + 1 + 8 + 1 }) := by
    rw [h4.1]; rfl
  have hiplt : c.ip < p.code.length := by
    have := h4.2.2
    omega
  have hle11 : { c with ip := c.ip + 1 + 1 + 8 + 1 } =
      ({ c with ip := c.ip + 11 } : Core) := by
    have : c.ip + 1 + 1 + 8 + 1 = c.ip + 11 := by omega
    rw [this]
  constructor
  · intro hover
    have hstep : c.stepInstr = .fail (.core .stackOverflow) := by
      unfold Core.stepInstr
      rw [h1op]
      dsimp only
      rw [if_pos (show validOpcode 36 = true from rfl)]
      rw [h2op]
      dsimp only
      rw [h3op]
      dsimp only
      rw [h4op]
      dsimp only [Core.regGetRaw]
      simp [hover]
    refine ⟨hstep, ?_⟩
    rw [runLoop_succ, if_pos hiplt, hstep]
  · intro hok
    have hstep : c.stepInstr = .next { c with ip := c.ip + 11, sp := c.sp + n } := by
      unfold Core.stepInstr
      rw [h1op]
      dsimp only
      rw [if_pos (show validOpcode 36 = true from rfl)]
      rw [h2op]
      dsimp only
      rw [h3op]
      dsimp only
      rw [h4op]
      dsimp only [Core.regGetRaw, Core.regSetRaw]
      simp [show ¬ (addrReal c.sp + n > c.stack.length) by omega,
            Nat.mod_eq_of_lt (show c.sp + n < 2 ^ 64 from hsp), hle11, hsp]
      omega
    refine ⟨hstep, ?_⟩
    rw [runLoop_succ, if_pos hiplt, hstep]

/-- C5, evaluated: on a 2-byte stack an ADDU_I SP, 4, SP instruction
overflows; on a 16-byte stack it bumps SP by 4 and the loop continues
(here immediately returning because IP passes the code end). -/
theorem c5_addu_i_sp_stack_overflow_witness :
    Core.stepInstr
      { Core.new 2 with
          program := some { code := [36, 16] ++ toLEBytes 8 4 ++ [16],
                            functions := [] } } =
      .fail (.core .stackOverflow) ∧
    Core.stepInstr
      { Core.new 16 with
          program := some { code := [36, 16] ++ toLEBytes 8 4 ++ [16],
                            functions := [] } } =
      .next { Core.new 16 with
                program := some { code := [36, 16] ++ toLEBytes 8 4 ++ [16],
                                  functions := [] },
                ip := 0 + 11,
                sp := (Core.new 16).sp + 4 } := by
  constructor
  · exact ((c5_addu_i_sp_stack_overflow
      { Core.new 2 with
          program := some { code := [36, 16] ++ toLEBytes 8 4 ++ [16],
                            functions := [] } }
      { code := [36, 16] ++ toLEBytes 8 4 ++ [16], functions := [] }
      4 [] 0 rfl rfl (by decide) (by decide) (by decide)).1 (by decide)).1
  · exact ((c5_addu_i_sp_stack_overflow
      { Core.new 16 with
          program := some { code := [36, 16] ++ toLEBytes 8 4 ++ [16],
                            functions := [] } }
      { code := [36, 16] ++ toLEBytes 8 4 ++ [16], functions := [] }
      4 [] 0 rfl rfl (by decide) (by decide) (by decide)).2 (by decide)).1

/-- C8: executing RET with a non-empty call stack pops the most
recently pushed return address into IP and the dispatch loop continues;
executing RET with an empty call stack exits the loop and run returns
success. The hypothesis fixes the byte at IP to the RET opcode (55). -/
theorem c8_ret_exit_or_pop (c : Core) (p : Program) (rest : List Nat)
    (fuel : Nat)
    (hp : c.program = some p)
    (hcode : p.code.drop c.ip = 55 :: rest)
    (hip : c.ip + 1 < 2 ^ 64) :
    (c.call_stack = [] →
       c.stepInstr = .exitLoop { c with ip := c.ip + 1 } ∧
       Core.runLoop (fuel + 1) p.code.length c = .ok { c with ip := c.ip + 1 }) ∧
    (∀ (r : Nat) (tail : List Nat), c.call_stack = r :: tail →
       c.stepInstr = .next { c with ip := r, call_stack := tail } ∧
       Core.runLoop (fuel + 1) p.code.length c =
         Core.runLoop fuel p.code.length { c with ip := r, call_stack := tail }) := by
  have h1 := get_op_eq c p 1 [55] rest hp (by simpa using hcode) rfl
    (by omega) (by omega)
  have h1op : c.get_op 1 = .ok (55, { c with ip := c.ip + 1 }) := by
    rw [h1.1]; rfl
  have hiplt : c.ip < p.code.length := by
    have := h1.2.2
    omega
  constructor
  · intro hcs
    have hstep : c.stepInstr = .exitLoop { c with ip := c.ip + 1 } := by
      unfold Core.stepInstr
      rw [h1op]
      dsimp only
      rw [if_pos (show validOpcode 55 = true from rfl)]
      rw [show ({ c with ip := c.ip + 1 } : Core).call_stack = [] from hcs]
    refine ⟨hstep, ?_⟩
    rw [runLoop_succ, if_pos hiplt, hstep]
  · intro r tail hcs
    have hstep : c.stepInstr = .next { c with ip := r, call_stack := tail } := by
      unfold Core.stepInstr
      rw [h1op]
      dsimp only
      rw [if_pos (show validOpcode 55 = true from rfl)]
      rw [show ({ c with ip := c.ip + 1 } : Core).call_stack = r :: tail from hcs]
      dsimp only [Core.ret]
    refine ⟨hstep, ?_⟩
    rw [runLoop_succ, if_pos hiplt, hstep]

/-- C8, evaluated: a RET at IP 0 with a return address 9 on the call
stack jumps to 9; with an empty call stack the loop exits cleanly. -/
theorem c8_ret_exit_or_pop_witness :
    Core.runLoop 1 1
      { Core.new 4 with program := some { code := [55], functions := [] } } =
      .ok { Core.new 4 with
              program := some { code := [55], functions := [] },
              ip := 0 + 1 } ∧
    Core.stepInstr
      { Core.new 4 with
          program := some { code := [55], functions := [] },
          call_stack := [9] } =
      .next { Core.new 4 with
                program := some { code := [55], functions := [] },
                call_stack := ([] : List Nat),
                ip := 9 } := by
  constructor
  · exact ((c8_ret_exit_or_pop
      { Core.new 4 with program := some { code := [55], functions := [] } }
      { code := [55], functions := [] } [] 0 rfl rfl (by decide)).1 rfl).2
  · exact ((c8_ret_exit_or_pop
      { Core.new 4 with
          program := some { code := [55], functions := [] },
          call_stack := [9] }
      { code := [55], functions := [] } [] 0 rfl rfl (by decide)).2 9 [] rfl).1

end Oxs
